import Mathlib

/- Verification of the taptime-games repository against its natural-language
specification.  The development shallowly embeds the client game-loop
(src/client/src/lib/game-engine.ts), the client score cache
(src/client/src/lib/storage.ts), the in-memory server store and the HTTP
route handlers (src/server/routes.ts). -/

/- ### Descending sort by score

Score lists are sorted in the source with the JavaScript comparator
fun a b => b.score - a.score, i.e. descending by the numeric score.  We
model this with insertion sort keyed by a score projection.  The relative
order of entries with equal scores is an accident of the underlying sort
(the spec itself calls the tie-break unspecified) and no claim depends on
it. -/

def scoreGe {α : Type} (key : α → Int) (a b : α) : Prop :=
  key b ≤ key a

instance {α : Type} (key : α → Int) : DecidableRel (scoreGe key) :=
  fun a b => Int.decLe (key b) (key a)

instance {α : Type} (key : α → Int) : IsTotal α (scoreGe key) :=
  ⟨fun a b => le_total (key b) (key a)⟩

instance {α : Type} (key : α → Int) : IsTrans α (scoreGe key) :=
  ⟨fun _ _ _ h1 h2 => le_trans h2 h1⟩

instance : IsAntisymm Int (scoreGe id) :=
  ⟨fun _ _ h1 h2 => le_antisymm h2 h1⟩

/-- Sort a list in descending order of `key`, modelling
`.sort((a, b) => b.score - a.score)` from the source. -/
def sortDesc {α : Type} (key : α → Int) (l : List α) : List α :=
  List.insertionSort (scoreGe key) l

theorem sortDesc_sorted {α : Type} (key : α → Int) (l : List α) :
    List.Sorted (scoreGe key) (sortDesc key l) :=
  List.sorted_insertionSort _ l

theorem sortDesc_perm {α : Type} (key : α → Int) (l : List α) :
    (sortDesc key l).Perm l :=
  List.perm_insertionSort _ l

theorem sortDesc_of_sorted {l : List Int}
    (h : List.Sorted (scoreGe id) l) : sortDesc id l = l :=
  List.Sorted.insertionSort_eq h

theorem map_orderedInsert {α : Type} (key : α → Int) (x : α) (l : List α) :
    (List.orderedInsert (scoreGe key) x l).map key
      = List.orderedInsert (scoreGe id) (key x) (l.map key) := by
  induction l with
  | nil => rfl
  | cons b t ih =>
      by_cases h : key b ≤ key x
      · simp [List.orderedInsert, scoreGe, h]
      · simp [List.orderedInsert, scoreGe, h, ih]

theorem map_sortDesc {α : Type} (key : α → Int) (l : List α) :
    (sortDesc key l).map key = sortDesc id (l.map key) := by
  induction l with
  | nil => rfl
  | cons b t ih =>
      simp [sortDesc, List.insertionSort] at ih ⊢
      rw [map_orderedInsert, ih]

theorem sortDesc_append_singleton (l : List Int) (x : Int) :
    sortDesc id (l ++ [x]) = List.orderedInsert (scoreGe id) x (sortDesc id l) := by
  apply List.eq_of_perm_of_sorted (r := scoreGe id)
  · exact (sortDesc_perm id (l ++ [x])).trans
      ((List.perm_append_singleton x l).trans
        (((sortDesc_perm id l).cons x).symm.trans
          (List.perm_orderedInsert _ x (sortDesc id l)).symm))
  · exact sortDesc_sorted id (l ++ [x])
  · exact List.Sorted.orderedInsert x (sortDesc id l) (sortDesc_sorted id l)

theorem take_cons_take {α : Type} (m : Nat) (b : α) (t : List α) :
    (b :: t.take m).take m = (b :: t).take m := by
  cases m with
  | zero => rfl
  | succ j =>
      simp [List.take_cons, List.take_take, Nat.min_eq_left (Nat.le_succ j)]

theorem take_orderedInsert_take (x : Int) (s : List Int) (n : Nat) :
    (List.orderedInsert (scoreGe id) x (s.take n)).take n
      = (List.orderedInsert (scoreGe id) x s).take n := by
  induction s generalizing n with
  | nil => simp
  | cons b t ih =>
      cases n with
      | zero => simp
      | succ m =>
          rw [List.take_succ_cons]
          by_cases h : scoreGe id x b
          · simp only [List.orderedInsert, if_pos h]
            rw [List.take_succ_cons, List.take_succ_cons, take_cons_take]
          · simp only [List.orderedInsert, if_neg h]
            rw [List.take_succ_cons, List.take_succ_cons, ih]

theorem sorted_take_sortDesc (n : Nat) (L : List Int) :
    List.Sorted (scoreGe id) ((sortDesc id L).take n) :=
  List.Pairwise.sublist (List.take_sublist n _) (sortDesc_sorted id L)

theorem take_sortDesc_take_append (n : Nat) (L M : List Int) :
    (sortDesc id ((sortDesc id L).take n ++ M)).take n
      = (sortDesc id (L ++ M)).take n := by
  induction M generalizing L with
  | nil =>
      rw [List.append_nil, List.append_nil, sortDesc_of_sorted (sorted_take_sortDesc n L),
        List.take_take, Nat.min_self]
  | cons x M' ih =>
      have key_eq : (sortDesc id ((sortDesc id L).take n ++ [x])).take n
          = (sortDesc id (L ++ [x])).take n := by
        rw [sortDesc_append_singleton, sortDesc_append_singleton,
          sortDesc_of_sorted (sorted_take_sortDesc n L),
          take_orderedInsert_take]
      calc (sortDesc id ((sortDesc id L).take n ++ x :: M')).take n
          = (sortDesc id (((sortDesc id L).take n ++ [x]) ++ M')).take n := by
            rw [List.append_assoc, List.singleton_append]
        _ = (sortDesc id ((sortDesc id ((sortDesc id L).take n ++ [x])).take n ++ M')).take n :=
            (ih ((sortDesc id L).take n ++ [x])).symm
        _ = (sortDesc id ((sortDesc id (L ++ [x])).take n ++ M')).take n := by
            rw [key_eq]
        _ = (sortDesc id ((L ++ [x]) ++ M')).take n := ih (L ++ [x])
        _ = (sortDesc id (L ++ x :: M')).take n := by
            rw [List.append_assoc, List.singleton_append]

/- ### Generic game loop (src/client/src/lib/game-engine.ts)

`GameState` is the engine's observable state record.  The engine's public
operations mutate it; `stop` additionally invokes the registered
game-over callback `onGameOver?.(this.state.score)`.  We instrument each
operation with the list of events it emits: `Ev.gameOver s` records one
invocation of the game-over notification carrying score `s`, and
`Ev.started` is pure instrumentation marking the transition into the
Playing state (the source emits no event there), used to count logical
game runs.  The `animationId` bookkeeping has no observable effect on
`GameState` and is omitted. -/

structure GameState where
  score : Int
  isPlaying : Bool
  isPaused : Bool
  gameOver : Bool
deriving DecidableEq

/-- Initial state established by the `GameEngine` constructor. -/
def GameEngine.initState : GameState :=
  { score := 0, isPlaying := false, isPaused := false, gameOver := false }

inductive Ev where
  | gameOver (score : Int)
  | started
deriving DecidableEq

/-- Model of `start()`: no-op if already playing, otherwise enter Playing. -/
def GameEngine.start (s : GameState) : GameState × List Ev :=
  if s.isPlaying then (s, [])
  else ({ s with isPlaying := true, gameOver := false, isPaused := false },
        [Ev.started])

/-- Model of `pause()`: toggle the suspend flag. -/
def GameEngine.pause (s : GameState) : GameState × List Ev :=
  ({ s with isPaused := !s.isPaused }, [])

/-- Model of `stop()`: cancel the frame chain (not part of `GameState`), set
`isPlaying := false`, `gameOver := true`, and invoke the game-over
callback with the current score. -/
def GameEngine.stop (s : GameState) : GameState × List Ev :=
  ({ s with isPlaying := false, gameOver := true }, [Ev.gameOver s.score])

/-- Subclass-defined `reset()`.  Every game in the repository clears its
private entity fields (not part of `GameState`) and calls
`updateScore(r)`; all six provided games use `r = 0`. -/
def GameEngine.reset (r : Int) (s : GameState) : GameState × List Ev :=
  ({ s with score := r }, [])

/-- Model of `restart()`: `stop(); reset(); start()`. -/
def GameEngine.restart (r : Int) (s : GameState) : GameState × List Ev :=
  let p1 := GameEngine.stop s
  let p2 := GameEngine.reset r p1.1
  let p3 := GameEngine.start p2.1
  (p3.1, p1.2 ++ p2.2 ++ p3.2)

inductive Op where
  | start
  | pause
  | stop
  | restart
deriving DecidableEq

def GameEngine.step (r : Int) (s : GameState) : Op → GameState × List Ev
  | Op.start => GameEngine.start s
  | Op.pause => GameEngine.pause s
  | Op.stop => GameEngine.stop s
  | Op.restart => GameEngine.restart r s

/-- Run a sequence of public operations, accumulating emitted events. -/
def GameEngine.run (r : Int) (s : GameState) : List Op → GameState × List Ev
  | [] => (s, [])
  | op :: ops =>
      let p := GameEngine.step r s op
      let q := GameEngine.run r p.1 ops
      (q.1, p.2 ++ q.2)

/-- Number of game-over notifications in an event list. -/
def countGameOver (evs : List Ev) : Nat :=
  (evs.filter fun e => match e with | Ev.gameOver _ => true | _ => false).length

/-- Number of transitions into the Playing state in an event list. -/
def countStarted (evs : List Ev) : Nat :=
  (evs.filter fun e => match e with | Ev.started => true | _ => false).length

/- ### Client score cache (src/client/src/lib/storage.ts)

`GameScore` mirrors the client record.  The stored value under the
`taptime-scores` key is a JSON-serialised array; `saveScore` operates on
the parsed array (its `getScores()` call yields exactly the stored array
in the well-formed case).  The read path over possibly-corrupt content is
modelled separately below for the degradation claims. -/

structure GameScore where
  gameSlug : String
  score : Int
  playerName : Option String
  timestamp : Int
deriving DecidableEq

/-- Model of `LocalStorage.saveScore`: push the new score, keep only the top 100
entries for that game (sorted descending by score), leave entries of
other games in place. -/
def LocalStorage.saveScore (cache : List GameScore) (s : GameScore) : List GameScore :=
  let scores := cache ++ [s]
  let gameScores := scores.filter fun r => r.gameSlug == s.gameSlug
  let otherScores := scores.filter fun r => !(r.gameSlug == s.gameSlug)
  let topGameScores := (sortDesc (fun r : GameScore => r.score) gameScores).take 100
  otherScores ++ topGameScores

/-- A sequence of `saveScore` calls applied in order. -/
def LocalStorage.saveAll (cache : List GameScore) (ss : List GameScore) : List GameScore :=
  ss.foldl LocalStorage.saveScore cache

/- Read path.  `getScores` wraps `JSON.parse(localStorage.getItem(key) || chr[])`
in try/catch.  The stored content may be absent (`getItem` returns null,
so the literal empty-array string is parsed), unparsable (`JSON.parse`
throws, caught, yielding the empty list), a well-formed array, or valid
JSON of some non-array shape.  In the last case, `scores.filter` throws a
TypeError that the surrounding try/catch converts to the empty list when
a game slug is given, while the bare `getScores()` returns the parsed
non-array value unchanged. -/

inductive ScoresCacheContent where
  | absent
  | unparsable
  | array (xs : List GameScore)
  | nonArray
deriving DecidableEq

inductive ScoresReadResult where
  | list (xs : List GameScore)
  | raw
deriving DecidableEq

/-- Model of `LocalStorage.getScores`, over the four shapes of stored content. -/
def LocalStorage.getScores (c : ScoresCacheContent) (gameSlug : Option String) :
    ScoresReadResult :=
  match c with
  | ScoresCacheContent.absent => ScoresReadResult.list []
  | ScoresCacheContent.unparsable => ScoresReadResult.list []
  | ScoresCacheContent.array xs =>
      match gameSlug with
      | some g => ScoresReadResult.list (xs.filter fun r => r.gameSlug == g)
      | none => ScoresReadResult.list xs
  | ScoresCacheContent.nonArray =>
      match gameSlug with
      | some _ => ScoresReadResult.list []
      | none => ScoresReadResult.raw

/-- Coerce a read result to the list the caller iterates.  `getScores`
with a slug never produces `raw` (proved below), so the `raw` branch is
unreachable in the callers that use this. -/
def ScoresReadResult.asList : ScoresReadResult → List GameScore
  | ScoresReadResult.list xs => xs
  | ScoresReadResult.raw => []

/-- Model of `LocalStorage.getTopScores`: slug-filtered scores, sorted descending,
first `limit` entries (default 10 at the call sites). -/
def LocalStorage.getTopScores (c : ScoresCacheContent) (gameSlug : String)
    (limit : Nat) : List GameScore :=
  ((sortDesc (fun r : GameScore => r.score)
    (LocalStorage.getScores c (some gameSlug)).asList).take limit)

/-- Model of `LocalStorage.getBestScore`: top score if any, else 0. -/
def LocalStorage.getBestScore (c : ScoresCacheContent) (gameSlug : String) : Int :=
  match LocalStorage.getTopScores c gameSlug 1 with
  | [] => 0
  | s :: _ => s.score

inductive Theme where
  | light
  | dark
  | system
deriving DecidableEq

structure UserPreferences where
  theme : Theme
  soundEnabled : Bool
  playerName : Option String
deriving DecidableEq

/-- Defaults returned when no preferences are stored. -/
def defaultPreferences : UserPreferences :=
  { theme := Theme.system, soundEnabled := true, playerName := none }

inductive PrefsCacheContent where
  | absent
  | unparsable
  | value (p : UserPreferences)
  | wrongShape
deriving DecidableEq

inductive PrefsReadResult where
  | prefs (p : UserPreferences)
  | raw
deriving DecidableEq

/-- Model of `LocalStorage.getPreferences`: stored JSON if present and parsable
(returned as-is, whatever its shape), defaults when absent or when
`JSON.parse` throws. -/
def LocalStorage.getPreferences (c : PrefsCacheContent) : PrefsReadResult :=
  match c with
  | PrefsCacheContent.absent => PrefsReadResult.prefs defaultPreferences
  | PrefsCacheContent.unparsable => PrefsReadResult.prefs defaultPreferences
  | PrefsCacheContent.value p => PrefsReadResult.prefs p
  | PrefsCacheContent.wrongShape => PrefsReadResult.raw

/- ### Server data model (shared schema) and in-memory store
(src/server/routes.ts, MemStorage)

JavaScript `Map` preserves insertion order, so each `Map` of records is
modelled as a `List` in insertion order; `Array.from(map.values())`
is the list itself.  `randomUUID()` and `new Date()` are nondeterministic
inputs and appear as explicit parameters.  Timestamps are epoch
milliseconds as `Int`. -/

structure Game where
  id : String
  name : String
  slug : String
  description : String
  category : String
  size : String
  thumbnail : Option String
  isActive : Int
  createdAt : Int
deriving DecidableEq

structure Score where
  id : String
  gameId : String
  userId : Option String
  playerName : Option String
  score : Int
  createdAt : Int
deriving DecidableEq

/-- The score-creation payload (insertScoreSchema: a Score minus the
generated id and createdAt). -/
structure InsertScore where
  gameId : String
  userId : Option String
  playerName : Option String
  score : Int
deriving DecidableEq

structure Challenge where
  id : String
  gameId : String
  title : String
  description : String
  target : Int
  reward : Int
  startDate : Int
  endDate : Int
  isActive : Int
deriving DecidableEq

/-- JavaScript `Array.prototype.slice(0, e)`: a negative end counts back
from the end of the array. -/
def jsSliceTo {α : Type} (l : List α) (e : Int) : List α :=
  if 0 ≤ e then l.take e.toNat
  else l.take ((l.length : Int) + e).toNat

/-- Model of `MemStorage.getGameBySlug`: first game (in insertion order) whose
slug matches. -/
def MemStorage.getGameBySlug (games : List Game) (slug : String) : Option Game :=
  games.find? fun g => g.slug == slug

/-- Model of `MemStorage.createGame`: append a new game record built from the
payload, the generated id and the creation instant. -/
def MemStorage.createGame (games : List Game) (g : Game) : List Game :=
  games ++ [g]

/-- Model of `MemStorage.getScores(gameId?, limit)`: filter by game when a game id
is given (an absent or empty `gameId` query value is falsy in JS and
means no filter), sort descending by score, `slice(0, limit)`. -/
def MemStorage.getScores (scores : List Score) (gameId : Option String)
    (limit : Int) : List Score :=
  let filtered := match gameId with
    | some g => scores.filter fun s => s.gameId == g
    | none => scores
  jsSliceTo (sortDesc (fun s : Score => s.score) filtered) limit

/-- Model of `MemStorage.getTopScores`: delegates to `getScores`. -/
def MemStorage.getTopScores (scores : List Score) (gameId : String)
    (limit : Int) : List Score :=
  MemStorage.getScores scores (some gameId) limit

/-- Model of `MemStorage.createScore`: append the record built from the validated
payload, the generated id and the creation instant; return it. -/
def MemStorage.createScore (scores : List Score) (d : InsertScore)
    (id : String) (now : Int) : List Score × Score :=
  let record : Score :=
    { id := id, gameId := d.gameId, userId := d.userId,
      playerName := d.playerName, score := d.score, createdAt := now }
  (scores ++ [record], record)

/-- The activity predicate of `MemStorage.getActiveChallenge`:
matching game, active flag set, `startDate <= now <= endDate`. -/
def challengeActive (now : Int) (gameId : String) (c : Challenge) : Bool :=
  c.gameId == gameId && c.isActive == 1
    && decide (c.startDate ≤ now) && decide (now ≤ c.endDate)

/-- Model of `MemStorage.getActiveChallenge`: `.find(...)` returns the first
challenge, in insertion order, satisfying the activity predicate. -/
def MemStorage.getActiveChallenge (challenges : List Challenge) (now : Int)
    (gameId : String) : Option Challenge :=
  challenges.find? (challengeActive now gameId)

/- ### HTTP route handlers (src/server/routes.ts, registerRoutes)

Each handler awaits one store operation inside try/catch.  We model the
store call's outcome as `Except String _` (the `String` is the thrown
error, which no handler ever inspects) and the handler as a pure map from
that outcome to a response.  `res.json(undefined)` (possible only on the
per-game challenge route) sends an empty body. -/

inductive RespBody where
  | games (l : List Game)
  | game (g : Game)
  | scores (l : List Score)
  | score (s : Score)
  | challenges (l : List Challenge)
  | challenge (c : Challenge)
  | empty
  | message (m : String)
deriving DecidableEq

structure Resp where
  status : Nat
  body : RespBody
deriving DecidableEq

/-- Handler of `GET /api/games`. -/
def gamesRoute (r : Except String (List Game)) : Resp :=
  match r with
  | Except.ok gs => { status := 200, body := RespBody.games gs }
  | Except.error _ => { status := 500, body := RespBody.message "Failed to fetch games" }

/-- Handler of `GET /api/games/:slug`. -/
def gameBySlugRoute (r : Except String (Option Game)) : Resp :=
  match r with
  | Except.ok none => { status := 404, body := RespBody.message "Game not found" }
  | Except.ok (some g) => { status := 200, body := RespBody.game g }
  | Except.error _ => { status := 500, body := RespBody.message "Failed to fetch game" }

/-- Handler of `GET /api/scores`. -/
def scoresRoute (r : Except String (List Score)) : Resp :=
  match r with
  | Except.ok l => { status := 200, body := RespBody.scores l }
  | Except.error _ => { status := 500, body := RespBody.message "Failed to fetch scores" }

/-- Handler of `POST /api/scores`: body validation and the store call share one
try/catch, so a store failure is also answered with 400. -/
def postScoresRoute (parsed : Option InsertScore) (r : Except String Score) : Resp :=
  match parsed with
  | none => { status := 400, body := RespBody.message "Invalid score data" }
  | some _ =>
      match r with
      | Except.ok s => { status := 201, body := RespBody.score s }
      | Except.error _ => { status := 400, body := RespBody.message "Invalid score data" }

/-- Handler of `GET /api/leaderboard/:gameId`. -/
def leaderboardRoute (r : Except String (List Score)) : Resp :=
  match r with
  | Except.ok l => { status := 200, body := RespBody.scores l }
  | Except.error _ => { status := 500, body := RespBody.message "Failed to fetch leaderboard" }

/-- Handler of `GET /api/challenges`. -/
def challengesRoute (r : Except String (List Challenge)) : Resp :=
  match r with
  | Except.ok l => { status := 200, body := RespBody.challenges l }
  | Except.error _ => { status := 500, body := RespBody.message "Failed to fetch challenges" }

/-- Handler of `GET /api/challenges/:gameId`; an undefined result renders as an
empty response body. -/
def challengeByGameRoute (r : Except String (Option Challenge)) : Resp :=
  match r with
  | Except.ok (some c) => { status := 200, body := RespBody.challenge c }
  | Except.ok none => { status := 200, body := RespBody.empty }
  | Except.error _ => { status := 500, body := RespBody.message "Failed to fetch challenge" }

/-- Model of `parseInt(req.query.limit as string) || 10`: `parseInt` yields NaN on
an absent or non-numeric value (modelled as `none`), and both NaN and 0
are falsy, so they fall back to 10; any other parsed integer, including
negative ones, is used as-is. -/
def effectiveLimit (limitParam : Option Int) : Int :=
  match limitParam with
  | none => 10
  | some v => if v = 0 then 10 else v

/-- Endpoint `GET /api/scores` wired to the in-memory store (never throws). -/
def scoresEndpoint (store : List Score) (gameId : Option String)
    (limitParam : Option Int) : Resp :=
  scoresRoute (Except.ok (MemStorage.getScores store gameId (effectiveLimit limitParam)))

/-- Endpoint `GET /api/leaderboard/:gameId` wired to the in-memory store. -/
def leaderboardEndpoint (store : List Score) (gameId : String)
    (limitParam : Option Int) : Resp :=
  leaderboardRoute (Except.ok (MemStorage.getTopScores store gameId (effectiveLimit limitParam)))

/-- Endpoint `GET /api/games/:slug` wired to the in-memory store. -/
def gameBySlugEndpoint (store : List Game) (slug : String) : Resp :=
  gameBySlugRoute (Except.ok (MemStorage.getGameBySlug store slug))

/-- Endpoint `GET /api/challenges/:gameId` wired to the in-memory store. -/
def challengeByGameEndpoint (store : List Challenge) (now : Int)
    (gameId : String) : Resp :=
  challengeByGameRoute (Except.ok (MemStorage.getActiveChallenge store now gameId))

/- ### Game-loop claims -/

theorem step_preserves_exclusive (r : Int) (s : GameState)
    (h : (s.isPlaying && s.gameOver) = false) (op : Op) :
    ((GameEngine.step r s op).1.isPlaying && (GameEngine.step r s op).1.gameOver) = false := by
  cases op with
  | start =>
      by_cases hp : s.isPlaying
      · simpa [GameEngine.step, GameEngine.start, hp] using h
      · simp [GameEngine.step, GameEngine.start, hp]
  | pause => simpa [GameEngine.step, GameEngine.pause] using h
  | stop => simp [GameEngine.step, GameEngine.stop]
  | restart =>
      simp [GameEngine.step, GameEngine.restart, GameEngine.stop, GameEngine.reset,
        GameEngine.start]

theorem run_preserves_exclusive (r : Int) (ops : List Op) :
    ∀ s : GameState, (s.isPlaying && s.gameOver) = false →
      ((GameEngine.run r s ops).1.isPlaying && (GameEngine.run r s ops).1.gameOver) = false := by
  induction ops with
  | nil => intro s h; simpa [GameEngine.run] using h
  | cons op ops ih =>
      intro s h
      simp only [GameEngine.run]
      exact ih _ (step_preserves_exclusive r s h op)

/-- C1: starting from the initial state, no sequence of the public
operations start/pause/stop/restart ever leaves the engine with both
isPlaying = true and gameOver = true. -/
theorem claim_C1_playing_gameOver_exclusive (r : Int) (ops : List Op) :
    ((GameEngine.run r GameEngine.initState ops).1.isPlaying
      && (GameEngine.run r GameEngine.initState ops).1.gameOver) = false :=
  run_preserves_exclusive r ops GameEngine.initState rfl

/-- C7: from any state, restart leaves the engine Playing (isPlaying =
true, gameOver = false, isPaused = false) with the score established by
the subclass reset (0 for all six provided games). -/
theorem claim_C7_restart_playing (r : Int) (s : GameState) :
    (GameEngine.restart r s).1
      = { score := r, isPlaying := true, isPaused := false, gameOver := false } := by
  simp [GameEngine.restart, GameEngine.stop, GameEngine.reset, GameEngine.start]

theorem countGameOver_append (a b : List Ev) :
    countGameOver (a ++ b) = countGameOver a + countGameOver b := by
  simp [countGameOver, List.filter_append]

theorem countGameOver_step (r : Int) (s : GameState) (op : Op) :
    countGameOver (GameEngine.step r s op).2
      = (if op = Op.stop ∨ op = Op.restart then 1 else 0) := by
  cases op with
  | start =>
      by_cases hp : s.isPlaying <;>
        simp [GameEngine.step, GameEngine.start, hp, countGameOver]
  | pause => simp [GameEngine.step, GameEngine.pause, countGameOver]
  | stop => simp [GameEngine.step, GameEngine.stop, countGameOver]
  | restart =>
      simp [GameEngine.step, GameEngine.restart, GameEngine.stop, GameEngine.reset,
        GameEngine.start, countGameOver]

theorem countGameOver_run (r : Int) (ops : List Op) :
    ∀ s : GameState, countGameOver (GameEngine.run r s ops).2
      = (ops.filter fun op => decide (op = Op.stop) || decide (op = Op.restart)).length := by
  induction ops with
  | nil => intro s; rfl
  | cons op ops ih =>
      intro s
      simp only [GameEngine.run]
      rw [countGameOver_append, countGameOver_step, ih]
      cases op <;> simp [List.filter, Nat.add_comm]

/-- C4 amended: every stop call, in any state, sets isPlaying = false and
gameOver = true and invokes the game-over notification exactly once with
the current score; across a whole operation sequence the notification
fires exactly once per stop or restart call, so a logical run can be
notified more than once when stop runs on an already-stopped engine. -/
theorem claim_C4_stop_notification (s : GameState) (r : Int) (ops : List Op) :
    GameEngine.stop s
        = ({ s with isPlaying := false, gameOver := true }, [Ev.gameOver s.score])
      ∧ countGameOver (GameEngine.run r GameEngine.initState ops).2
        = (ops.filter fun op => decide (op = Op.stop) || decide (op = Op.restart)).length :=
  ⟨rfl, countGameOver_run r ops GameEngine.initState⟩

/-- C4 counterexample: the sequence start, stop, stop performs a single
logical game run (one transition into Playing) yet the game-over
notification is invoked twice, refuting "never invoked more than once
per logical game run". -/
theorem claim_C4_counterexample :
    countGameOver (GameEngine.run 0 GameEngine.initState [Op.start, Op.stop, Op.stop]).2 = 2
      ∧ countStarted (GameEngine.run 0 GameEngine.initState [Op.start, Op.stop, Op.stop]).2 = 1 := by
  decide

/- ### Route error-handling claims -/

/-- C5 counterexample: a well-formed score payload whose store call
throws is answered with 400, not with the generic 500 the claim
requires for every handler on store exceptions. -/
theorem claim_C5_counterexample :
    (postScoresRoute
        (some { gameId := "g1", userId := none, playerName := none, score := 450 })
        (Except.error "store failure")).status = 400
      ∧ (postScoresRoute
        (some { gameId := "g1", userId := none, playerName := none, score := 450 })
        (Except.error "store failure")).status ≠ 500 := by
  decide

/-- C5 amended: on a store exception every GET handler returns a generic
500 whose body is a fixed message independent of the thrown error; the
POST score-creation handler returns 400 both for a malformed body and
for a store exception; a well-formed body with a successful store call
yields 201 with the created record. -/
theorem claim_C5_error_handling (e : String) (d : InsertScore)
    (rr : Except String Score) (store : List Score) (id : String) (now : Int) :
    gamesRoute (Except.error e)
        = { status := 500, body := RespBody.message "Failed to fetch games" }
      ∧ gameBySlugRoute (Except.error e)
        = { status := 500, body := RespBody.message "Failed to fetch game" }
      ∧ scoresRoute (Except.error e)
        = { status := 500, body := RespBody.message "Failed to fetch scores" }
      ∧ leaderboardRoute (Except.error e)
        = { status := 500, body := RespBody.message "Failed to fetch leaderboard" }
      ∧ challengesRoute (Except.error e)
        = { status := 500, body := RespBody.message "Failed to fetch challenges" }
      ∧ challengeByGameRoute (Except.error e)
        = { status := 500, body := RespBody.message "Failed to fetch challenge" }
      ∧ postScoresRoute none rr
        = { status := 400, body := RespBody.message "Invalid score data" }
      ∧ postScoresRoute (some d) (Except.error e)
        = { status := 400, body := RespBody.message "Invalid score data" }
      ∧ postScoresRoute (some d) (Except.ok (MemStorage.createScore store d id now).2)
        = { status := 201, body := RespBody.score (MemStorage.createScore store d id now).2 } := by
  refine ⟨rfl, rfl, rfl, rfl, rfl, rfl, ?_, rfl, rfl⟩
  cases rr <;> rfl

/- ### Game-by-slug claims -/

theorem find?_append_none {α : Type} (p : α → Bool) (l1 l2 : List α)
    (h : l1.find? p = none) : (l1 ++ l2).find? p = l2.find? p := by
  induction l1 with
  | nil => rfl
  | cons a t ih =>
      by_cases hpa : p a = true
      · rw [List.find?_cons_of_pos t hpa] at h
        exact absurd h (by simp)
      · rw [List.find?_cons_of_neg t hpa] at h
        rw [List.cons_append, List.find?_cons_of_neg _ hpa, ih h]

/-- C8: if no game in the store has the requested slug, the slug route
answers 404; after creating a game carrying that slug, the same route
answers 200 with exactly that record. -/
theorem claim_C8_game_by_slug (store : List Game) (g : Game) (slug : String)
    (hfresh : ∀ g0 ∈ store, g0.slug ≠ slug) (hg : g.slug = slug) :
    gameBySlugEndpoint (MemStorage.createGame store g) slug
        = { status := 200, body := RespBody.game g }
      ∧ gameBySlugEndpoint store slug
        = { status := 404, body := RespBody.message "Game not found" } := by
  have hnone : store.find? (fun g0 => g0.slug == slug) = none := by
    rw [List.find?_eq_none]
    intro x hx
    simp [hfresh x hx]
  constructor
  · have : MemStorage.getGameBySlug (MemStorage.createGame store g) slug = some g := by
      rw [MemStorage.getGameBySlug, MemStorage.createGame, find?_append_none _ _ _ hnone]
      exact List.find?_cons_of_pos _ (by simp [hg])
    simp [gameBySlugEndpoint, gameBySlugRoute, this]
  · simp [gameBySlugEndpoint, gameBySlugRoute, MemStorage.getGameBySlug, hnone]

def exCatalogGame : Game :=
  { id := "id-1", name := "Color Trap", slug := "color-trap",
    description := "Match the colors", category := "Reaction", size := "1.8MB",
    thumbnail := none, isActive := 1, createdAt := 0 }

def exNewGame : Game :=
  { id := "id-2", name := "Bottle Flip 2D", slug := "bottle-flip-2d",
    description := "Perfect your timing", category := "Timing", size := "2.1MB",
    thumbnail := none, isActive := 1, createdAt := 0 }

theorem claim_C8_witness :
    exCatalogGame.slug = "color-trap"
      ∧ exNewGame.slug = "bottle-flip-2d"
      ∧ gameBySlugEndpoint (MemStorage.createGame [exCatalogGame] exNewGame) "bottle-flip-2d"
        = { status := 200, body := RespBody.game exNewGame }
      ∧ gameBySlugEndpoint [exCatalogGame] "bottle-flip-2d"
        = { status := 404, body := RespBody.message "Game not found" } :=
  ⟨rfl, rfl,
    (claim_C8_game_by_slug [exCatalogGame] exNewGame "bottle-flip-2d"
      (by decide) (by decide)).1,
    (claim_C8_game_by_slug [exCatalogGame] exNewGame "bottle-flip-2d"
      (by decide) (by decide)).2⟩

/- ### Active-challenge claims -/

def exCh1 : Challenge :=
  { id := "c1", gameId := "g1", title := "Bottle Flip Master",
    description := "Land 10 consecutive flips", target := 10, reward := 500,
    startDate := 0, endDate := 200, isActive := 1 }

def exCh2 : Challenge :=
  { id := "c2", gameId := "g1", title := "Speed Demon",
    description := "Finish fast", target := 30, reward := 750,
    startDate := 0, endDate := 300, isActive := 1 }

/-- C6 counterexample: with two simultaneously active challenges for the
same game, the query returns only the first; the second satisfies the
activity predicate yet is not returned, refuting the "if and only if"
as stated. -/
theorem claim_C6_counterexample :
    challengeActive 100 "g1" exCh2 = true
      ∧ MemStorage.getActiveChallenge [exCh1, exCh2] 100 "g1" = some exCh1
      ∧ exCh1 ≠ exCh2 := by
  decide

/-- C6 amended: the active-challenge query returns the first challenge,
in store insertion order, whose active flag is set and whose window
contains the current time; some record is returned exactly when such a
challenge exists; any returned record is a stored challenge satisfying
the predicate; when none exists the response body is empty. -/
theorem claim_C6_active_challenge (cs : List Challenge) (now : Int) (g : String) :
    (∀ c : Challenge, MemStorage.getActiveChallenge cs now g = some c →
        c ∈ cs ∧ challengeActive now g c = true)
      ∧ (MemStorage.getActiveChallenge cs now g = none
        ↔ ∀ c ∈ cs, challengeActive now g c = false)
      ∧ challengeByGameEndpoint cs now g
        = (match MemStorage.getActiveChallenge cs now g with
          | some c => { status := 200, body := RespBody.challenge c }
          | none => { status := 200, body := RespBody.empty }) := by
  refine ⟨?_, ?_, ?_⟩
  · intro c h
    exact ⟨List.mem_of_find?_eq_some h, List.find?_some h⟩
  · rw [MemStorage.getActiveChallenge, List.find?_eq_none]
    constructor
    · intro h c hc
      simpa using h c hc
    · intro h c hc
      simp [h c hc]
  · cases h : MemStorage.getActiveChallenge cs now g <;>
      simp [challengeByGameEndpoint, challengeByGameRoute, h]

theorem claim_C6_witness :
    exCh1 ∈ ([exCh1] : List Challenge) ∧ challengeActive 100 "g1" exCh1 = true :=
  (claim_C6_active_challenge [exCh1] 100 "g1").1 exCh1 (by decide)

/- ### Leaderboard and limit-parsing claims -/

def exScoreOnly : Score :=
  { id := "s1", gameId := "g1", userId := none, playerName := none,
    score := 5, createdAt := 0 }

/-- C2 counterexample: with N = 1 stored score for the game and the
request limit k = 0 (0 ≤ N), the claim demands exactly the 0 highest
scores, i.e. an empty result, but `parseInt(...) || 10` turns the limit
into 10 and one record is returned. -/
theorem claim_C2_counterexample :
    effectiveLimit (some 0) = 10
      ∧ (MemStorage.getTopScores [exScoreOnly] "g1" (effectiveLimit (some 0))).length = 1 := by
  decide

/-- C2 amended: for 1 ≤ k ≤ N (N the number of stored scores for the
game), the leaderboard endpoint returns 200 with exactly the k
highest-scoring records: k records, score-sorted descending, whose score
values together with the scores of the remaining records form the full
multiset of stored score values for that game, every remaining value
being bounded by every returned one. -/
theorem claim_C2_leaderboard (store : List Score) (g : String) (k : Nat)
    (h1 : 1 ≤ k) (hk : k ≤ (store.filter fun s => s.gameId == g).length) :
    leaderboardEndpoint store g (some (k : Int))
        = { status := 200,
            body := RespBody.scores (MemStorage.getTopScores store g (k : Int)) }
      ∧ (MemStorage.getTopScores store g (k : Int)).length = k
      ∧ List.Sorted (scoreGe id)
          ((MemStorage.getTopScores store g (k : Int)).map fun s => s.score)
      ∧ ∃ rest : List Int,
          ((((MemStorage.getTopScores store g (k : Int)).map fun s => s.score) ++ rest).Perm
            ((store.filter fun s => s.gameId == g).map fun s => s.score))
          ∧ ∀ v ∈ rest,
              ∀ u ∈ (MemStorage.getTopScores store g (k : Int)).map fun s => s.score,
                v ≤ u := by
  have hne : ((k : Nat) : Int) ≠ 0 := Int.natCast_ne_zero.mpr (Nat.one_le_iff_ne_zero.mp h1)
  have htop : MemStorage.getTopScores store g ((k : Nat) : Int)
      = (sortDesc (fun s : Score => s.score) (store.filter fun s => s.gameId == g)).take k := by
    simp [MemStorage.getTopScores, MemStorage.getScores, jsSliceTo,
      Int.natCast_nonneg, Int.toNat_natCast]
  have hsorted := sortDesc_sorted (fun s : Score => s.score) (store.filter fun s => s.gameId == g)
  have hlen : (sortDesc (fun s : Score => s.score) (store.filter fun s => s.gameId == g)).length
      = (store.filter fun s => s.gameId == g).length :=
    (sortDesc_perm _ _).length_eq
  refine ⟨?_, ?_, ?_, ?_⟩
  · simp [leaderboardEndpoint, leaderboardRoute, effectiveLimit, hne]
  · rw [htop, List.length_take, hlen]
    exact Nat.min_eq_left hk
  · rw [htop]
    exact List.pairwise_map.mpr
      (List.Pairwise.sublist (List.take_sublist k _) hsorted)
  · refine ⟨((sortDesc (fun s : Score => s.score)
        (store.filter fun s => s.gameId == g)).drop k).map (fun s => s.score), ?_, ?_⟩
    · rw [htop, ← List.map_append, List.take_append_drop]
      exact List.Perm.map _ (sortDesc_perm _ _)
    · intro v hv u hu
      rw [htop] at hu
      obtain ⟨v0, hv0, rfl⟩ := List.mem_map.mp hv
      obtain ⟨u0, hu0, rfl⟩ := List.mem_map.mp hu
      exact List.Sorted.rel_of_mem_take_of_mem_drop hsorted hu0 hv0

def exScoreLow : Score :=
  { id := "sl", gameId := "g1", userId := none, playerName := none,
    score := 450, createdAt := 0 }

def exScoreHigh : Score :=
  { id := "sh", gameId := "g1", userId := none, playerName := none,
    score := 900, createdAt := 1 }

theorem claim_C2_witness :
    (1 : Nat) ≤ 1
      ∧ 1 ≤ (([exScoreLow, exScoreHigh] : List Score).filter fun s => s.gameId == "g1").length
      ∧ leaderboardEndpoint [exScoreLow, exScoreHigh] "g1" (some ((1 : Nat) : Int))
        = { status := 200,
            body := RespBody.scores
              (MemStorage.getTopScores [exScoreLow, exScoreHigh] "g1" ((1 : Nat) : Int)) }
      ∧ MemStorage.getTopScores [exScoreLow, exScoreHigh] "g1" ((1 : Nat) : Int)
        = [exScoreHigh] :=
  ⟨by decide, by decide,
    (claim_C2_leaderboard [exScoreLow, exScoreHigh] "g1" 1 (by decide) (by decide)).1,
    by decide⟩

/-- The records matched by a scores query: filtered by game when a game
id is supplied, the whole store otherwise. -/
def matchingScores (store : List Score) (gameId : Option String) : List Score :=
  match gameId with
  | some g => store.filter fun s => s.gameId == g
  | none => store

def exManyScores : List Score :=
  (List.range 11).map fun i =>
    { id := "s", gameId := "g1", userId := none, playerName := none,
      score := (i : Int), createdAt := 0 }

/-- C10 counterexample: `parseInt("-5")` is -5, which is truthy, so the
limit is not defaulted; `slice(0, -5)` then drops the last five entries
of the 11 matching records and only 6 are returned, fewer than
min(10, 11) = 10, refuting the claim for a supplied limit < 0. -/
theorem claim_C10_counterexample :
    exManyScores.length = 11
      ∧ (MemStorage.getScores exManyScores (some "g1") (effectiveLimit (some (-5)))).length = 6 := by
  decide

/-- C10 amended: when the limit query parameter is absent, non-numeric
(parseInt yields NaN) or parses to 0, the effective limit is 10 and both
score-listing routes return exactly min(10, number of matching records)
results; a negative parsed limit, however, is passed through to slice
and can return fewer. -/
theorem claim_C10_default_limit (store : List Score) (gameId : Option String) (g : String)
    (lp : Option Int) (h : lp = none ∨ lp = some 0) :
    effectiveLimit lp = 10
      ∧ scoresEndpoint store gameId lp
        = { status := 200, body := RespBody.scores (MemStorage.getScores store gameId 10) }
      ∧ (MemStorage.getScores store gameId (effectiveLimit lp)).length
        = min 10 (matchingScores store gameId).length
      ∧ (MemStorage.getTopScores store g (effectiveLimit lp)).length
        = min 10 (store.filter fun s => s.gameId == g).length := by
  have he : effectiveLimit lp = 10 := by
    rcases h with rfl | rfl <;> rfl
  have hlen : ∀ oid : Option String,
      (MemStorage.getScores store oid 10).length = min 10 (matchingScores store oid).length := by
    intro oid
    have hperm : ∀ l : List Score,
        (sortDesc (fun s : Score => s.score) l).length = l.length :=
      fun l => (sortDesc_perm _ _).length_eq
    cases oid <;>
      simp [MemStorage.getScores, matchingScores, jsSliceTo, List.length_take, hperm]
  refine ⟨he, ?_, ?_, ?_⟩
  · rw [scoresEndpoint, he]
    rfl
  · rw [he]
    exact hlen gameId
  · rw [he]
    exact hlen (some g)

/- ### Client score-cache retention claims -/

theorem filter_not_filter {α : Type} (p : α → Bool) (l : List α) :
    (l.filter fun x => !(p x)).filter p = [] := by
  induction l with
  | nil => rfl
  | cons a t ih =>
      cases hp : p a <;> simp [List.filter_cons, hp, ih]

theorem saveScore_expand (cache : List GameScore) (s : GameScore) :
    LocalStorage.saveScore cache s
      = ((cache ++ [s]).filter fun r => !(r.gameSlug == s.gameSlug))
        ++ ((sortDesc (fun r : GameScore => r.score)
            ((cache ++ [s]).filter fun r => r.gameSlug == s.gameSlug)).take 100) := rfl

theorem saveScore_filter_game (cache : List GameScore) (s : GameScore) (g : String)
    (hg : s.gameSlug = g) :
    (LocalStorage.saveScore cache s).filter (fun r => r.gameSlug == g)
      = (sortDesc (fun r : GameScore => r.score)
          ((cache.filter fun r => r.gameSlug == g) ++ [s])).take 100 := by
  subst hg
  rw [saveScore_expand, List.filter_append, filter_not_filter, List.nil_append]
  have hgame : ((cache ++ [s]).filter fun r => r.gameSlug == s.gameSlug)
      = (cache.filter fun r => r.gameSlug == s.gameSlug) ++ [s] := by
    rw [List.filter_append]
    simp
  rw [hgame]
  apply List.filter_eq_self.mpr
  intro a ha
  have h1 : a ∈ sortDesc (fun r : GameScore => r.score)
      ((cache.filter fun r => r.gameSlug == s.gameSlug) ++ [s]) :=
    (List.take_sublist 100 _).subset ha
  have h2 : a ∈ (cache.filter fun r => r.gameSlug == s.gameSlug) ++ [s] :=
    (sortDesc_perm _ _).mem_iff.mp h1
  rcases List.mem_append.mp h2 with h3 | h3
  · simpa using List.of_mem_filter h3
  · have h4 : a = s := by simpa using h3
    subst h4
    simp

theorem saveScore_filter_other (cache : List GameScore) (s : GameScore) (g : String)
    (hg : s.gameSlug = g) :
    (LocalStorage.saveScore cache s).filter (fun r => !(r.gameSlug == g))
      = cache.filter (fun r => !(r.gameSlug == g)) := by
  subst hg
  rw [saveScore_expand, List.filter_append]
  have h1 : (((cache ++ [s]).filter fun r => !(r.gameSlug == s.gameSlug)).filter
      fun r => !(r.gameSlug == s.gameSlug))
      = (cache ++ [s]).filter fun r => !(r.gameSlug == s.gameSlug) := by
    rw [List.filter_filter]
    simp
  have h2 : (((sortDesc (fun r : GameScore => r.score)
      ((cache ++ [s]).filter fun r => r.gameSlug == s.gameSlug)).take 100).filter
        fun r => !(r.gameSlug == s.gameSlug)) = [] := by
    rw [List.filter_eq_nil_iff]
    intro a ha
    have h3 : a ∈ (cache ++ [s]).filter fun r => r.gameSlug == s.gameSlug :=
      (sortDesc_perm _ _).mem_iff.mp ((List.take_sublist 100 _).subset ha)
    simp [List.of_mem_filter h3]
  rw [h1, h2, List.append_nil, List.filter_append]
  simp

theorem saveScore_vals (cache : List GameScore) (s : GameScore) (g : String)
    (hg : s.gameSlug = g) :
    ((LocalStorage.saveScore cache s).filter fun r => r.gameSlug == g).map (fun r => r.score)
      = (sortDesc id (((cache.filter fun r => r.gameSlug == g).map fun r => r.score)
          ++ [s.score])).take 100 := by
  rw [saveScore_filter_game cache s g hg, List.map_take, map_sortDesc, List.map_append]
  simp

theorem saveAll_vals (g : String) :
    ∀ ss : List GameScore, ss ≠ [] → (∀ s ∈ ss, s.gameSlug = g) →
      ∀ cache : List GameScore,
        ((LocalStorage.saveAll cache ss).filter fun r => r.gameSlug == g).map (fun r => r.score)
          = (sortDesc id (((cache.filter fun r => r.gameSlug == g).map fun r => r.score)
              ++ ss.map fun r => r.score)).take 100 := by
  intro ss
  induction ss with
  | nil => intro h; exact absurd rfl h
  | cons s ss' ih =>
      intro _ hslug cache
      have hs : s.gameSlug = g := hslug s (by simp)
      have hss' : ∀ t ∈ ss', t.gameSlug = g := fun t ht => hslug t (by simp [ht])
      by_cases hE : ss' = []
      · subst hE
        show ((LocalStorage.saveScore cache s).filter fun r => r.gameSlug == g).map _ = _
        rw [saveScore_vals cache s g hs]
        simp
      · have step : LocalStorage.saveAll cache (s :: ss')
            = LocalStorage.saveAll (LocalStorage.saveScore cache s) ss' := rfl
        rw [step, ih hE hss' (LocalStorage.saveScore cache s),
          saveScore_vals cache s g hs, take_sortDesc_take_append,
          List.append_assoc, List.singleton_append]
        simp

theorem saveAll_filter_other (g : String) :
    ∀ ss : List GameScore, (∀ s ∈ ss, s.gameSlug = g) →
      ∀ cache : List GameScore,
        (LocalStorage.saveAll cache ss).filter (fun r => !(r.gameSlug == g))
          = cache.filter (fun r => !(r.gameSlug == g)) := by
  intro ss
  induction ss with
  | nil => intro _ cache; rfl
  | cons s ss' ih =>
      intro hslug cache
      have step : LocalStorage.saveAll cache (s :: ss')
          = LocalStorage.saveAll (LocalStorage.saveScore cache s) ss' := rfl
      rw [step, ih (fun t ht => hslug t (by simp [ht])) _,
        saveScore_filter_other cache s g (hslug s (by simp))]

/-- C3: after any sequence of more than 100 saveScore calls for one game
identifier, the cache retains exactly 100 entries for that game, whose
score values are precisely the 100 largest (in descending order) among
the initially cached values for that game together with all saved
values; entries of other games are untouched. -/
theorem claim_C3_cache_retention (cache : List GameScore) (ss : List GameScore) (g : String)
    (hslug : ∀ s ∈ ss, s.gameSlug = g) (hlen : 100 < ss.length) :
    ((LocalStorage.saveAll cache ss).filter fun r => r.gameSlug == g).length = 100
      ∧ ((LocalStorage.saveAll cache ss).filter fun r => r.gameSlug == g).map (fun r => r.score)
        = (sortDesc id (((cache.filter fun r => r.gameSlug == g).map fun r => r.score)
            ++ ss.map fun r => r.score)).take 100
      ∧ (LocalStorage.saveAll cache ss).filter (fun r => !(r.gameSlug == g))
        = cache.filter (fun r => !(r.gameSlug == g)) := by
  have hne : ss ≠ [] := by
    intro h
    subst h
    simp at hlen
  have hvals := saveAll_vals g ss hne hslug cache
  refine ⟨?_, hvals, saveAll_filter_other g ss hslug cache⟩
  have h1 : ((LocalStorage.saveAll cache ss).filter fun r => r.gameSlug == g).length
      = (((LocalStorage.saveAll cache ss).filter fun r => r.gameSlug == g).map
          (fun r => r.score)).length := (List.length_map _ _).symm
  rw [h1, hvals, List.length_take, (sortDesc_perm _ _).length_eq]
  simp only [List.length_append, List.length_map]
  exact Nat.min_eq_left (by omega)

def exSaves : List GameScore :=
  (List.range 101).map fun i =>
    { gameSlug := "g", score := (i : Int), playerName := none, timestamp := 0 }

theorem claim_C3_witness :
    100 < exSaves.length
      ∧ ((LocalStorage.saveAll [] exSaves).filter fun r => r.gameSlug == "g").length = 100 :=
  ⟨by decide, (claim_C3_cache_retention [] exSaves "g" (by decide) (by decide)).1⟩

theorem claim_C10_witness :
    (some (0 : Int) = none ∨ some (0 : Int) = some 0)
      ∧ effectiveLimit (some 0) = 10
      ∧ (MemStorage.getScores [exScoreLow, exScoreHigh] (some "g1") (effectiveLimit (some 0))).length
        = min 10 (matchingScores [exScoreLow, exScoreHigh] (some "g1")).length :=
  ⟨Or.inr rfl,
    (claim_C10_default_limit [exScoreLow, exScoreHigh] (some "g1") "g1" (some 0) (Or.inr rfl)).1,
    (claim_C10_default_limit [exScoreLow, exScoreHigh] (some "g1") "g1" (some 0) (Or.inr rfl)).2.2.1⟩

/- ### Client cache degradation claims -/

/-- C9 counterexample: stored content that parses to valid JSON of a
non-array shape is returned unchanged by getScores called without a game
slug (the filter that would throw, and thereby trigger the catch, only
runs when a slug is supplied), so the read does not degrade to the empty
list as claimed. -/
theorem claim_C9_counterexample :
    LocalStorage.getScores ScoresCacheContent.nonArray none = ScoresReadResult.raw
      ∧ ScoresReadResult.raw ≠ ScoresReadResult.list [] := by
  decide

/-- C9 amended: every read is total (never throws).  On absent or
unparsable cache content getScores yields the empty list, getTopScores
the empty list, getBestScore 0 and getPreferences the defaults; on
parsable content of a non-array shape the slug-filtered reads
(getScores with a slug, getTopScores, getBestScore) likewise degrade to
empty/zero, but getScores without a slug returns the parsed value as-is,
and getPreferences returns any parsable stored value as-is. -/
theorem claim_C9_cache_degradation (slug : String) (xs : List GameScore) (lim : Nat) :
    LocalStorage.getScores ScoresCacheContent.absent none = ScoresReadResult.list []
      ∧ LocalStorage.getScores ScoresCacheContent.unparsable none = ScoresReadResult.list []
      ∧ LocalStorage.getScores ScoresCacheContent.absent (some slug) = ScoresReadResult.list []
      ∧ LocalStorage.getScores ScoresCacheContent.unparsable (some slug) = ScoresReadResult.list []
      ∧ LocalStorage.getScores ScoresCacheContent.nonArray (some slug) = ScoresReadResult.list []
      ∧ LocalStorage.getScores (ScoresCacheContent.array xs) (some slug)
        = ScoresReadResult.list (xs.filter fun r => r.gameSlug == slug)
      ∧ LocalStorage.getTopScores ScoresCacheContent.absent slug lim = []
      ∧ LocalStorage.getTopScores ScoresCacheContent.unparsable slug lim = []
      ∧ LocalStorage.getTopScores ScoresCacheContent.nonArray slug lim = []
      ∧ LocalStorage.getBestScore ScoresCacheContent.absent slug = 0
      ∧ LocalStorage.getBestScore ScoresCacheContent.unparsable slug = 0
      ∧ LocalStorage.getBestScore ScoresCacheContent.nonArray slug = 0
      ∧ LocalStorage.getPreferences PrefsCacheContent.absent
        = PrefsReadResult.prefs defaultPreferences
      ∧ LocalStorage.getPreferences PrefsCacheContent.unparsable
        = PrefsReadResult.prefs defaultPreferences
      ∧ LocalStorage.getPreferences PrefsCacheContent.wrongShape = PrefsReadResult.raw := by
  refine ⟨rfl, rfl, rfl, rfl, rfl, rfl, ?_, ?_, ?_, rfl, rfl, rfl, rfl, rfl, rfl⟩ <;>
    simp [LocalStorage.getTopScores, LocalStorage.getScores, ScoresReadResult.asList,
      sortDesc, List.insertionSort]
